import Mathlib

/-!
Verification of the AutomateOS workflow engine against its specification.

The Python sources under `app/` are shallowly embedded below:
JSON-compatible runtime values become the inductive `JValue`, Python
dicts become association lists in insertion order, fallible code
returns `Option`/`Except`, and the wall clock and outbound HTTP
transport are passed in as explicit parameters.  Each definition's doc
comment names the Python function it embeds.
-/

set_option autoImplicit false

/-- JSON-compatible Python runtime value, the type of everything the
engine threads through a run: trigger payloads, node configs, node
outputs and execution contexts.  Python dicts are modelled as
association lists in insertion order (keys unique in every dict the
engine builds); Python floats are modelled exactly as decimal
fractions `num / 10 ^ den10` — every float the engine sees originates
in a decimal literal of a condition or a JSON body. -/
inductive JValue where
  | null
  | bool (b : Bool)
  | int (n : Int)
  | float (num : Int) (den10 : Nat)
  | str (s : String)
  | list (items : List JValue)
  | dict (entries : List (String × JValue))
  deriving Repr

mutual

/-- Structural (Lean-level) equality test on `JValue`, used only to
decide propositional equality in concrete computations. -/
def jvalueBEq : JValue → JValue → Bool
  | .null, .null => true
  | .bool a, .bool b => a == b
  | .int a, .int b => a == b
  | .float a da, .float b db => a == b && da == db
  | .str a, .str b => a == b
  | .list a, .list b => jlistBEq a b
  | .dict a, .dict b => jdictBEq a b
  | _, _ => false

/-- Pointwise equality test on lists of values. -/
def jlistBEq : List JValue → List JValue → Bool
  | [], [] => true
  | a :: as, b :: bs => jvalueBEq a b && jlistBEq as bs
  | _, _ => false

/-- Pointwise equality test on dict entry lists. -/
def jdictBEq : List (String × JValue) → List (String × JValue) → Bool
  | [], [] => true
  | (k, v) :: as, (k2, w) :: bs => k == k2 && jvalueBEq v w && jdictBEq as bs
  | _, _ => false

end

mutual

theorem jvalueBEq_sound : ∀ a b, jvalueBEq a b = true → a = b
  | .null, .null, _ => rfl
  | .bool _, .bool _, h => by
    simpa [jvalueBEq] using congrArg JValue.bool (by exact_mod_cast of_decide_eq_true (by simpa [jvalueBEq] using h))
  | .int a, .int b, h => by
    have : a = b := by simpa [jvalueBEq] using h
    rw [this]
  | .float a da, .float b db, h => by
    have h' : a = b ∧ da = db := by simpa [jvalueBEq] using h
    rw [h'.1, h'.2]
  | .str a, .str b, h => by
    have : a = b := by simpa [jvalueBEq] using h
    rw [this]
  | .list a, .list b, h => by
    have : a = b := jlistBEq_sound a b (by simpa [jvalueBEq] using h)
    rw [this]
  | .dict a, .dict b, h => by
    have : a = b := jdictBEq_sound a b (by simpa [jvalueBEq] using h)
    rw [this]

theorem jlistBEq_sound : ∀ a b, jlistBEq a b = true → a = b
  | [], [], _ => rfl
  | x :: xs, y :: ys, h => by
    have h' := h
    simp only [jlistBEq, Bool.and_eq_true] at h'
    have h1 := jvalueBEq_sound x y h'.1
    have h2 := jlistBEq_sound xs ys h'.2
    rw [h1, h2]
  | [], _ :: _, h => by simp [jlistBEq] at h
  | _ :: _, [], h => by simp [jlistBEq] at h

theorem jdictBEq_sound : ∀ a b, jdictBEq a b = true → a = b
  | [], [], _ => rfl
  | (k, v) :: xs, (k2, w) :: ys, h => by
    have h' := h
    simp only [jdictBEq, Bool.and_eq_true] at h'
    have hk : k = k2 := by simpa using h'.1.1
    have h1 := jvalueBEq_sound v w h'.1.2
    have h2 := jdictBEq_sound xs ys h'.2
    rw [hk, h1, h2]
  | [], _ :: _, h => by simp [jdictBEq] at h
  | _ :: _, [], h => by simp [jdictBEq] at h

end

mutual

theorem jvalueBEq_refl : ∀ a, jvalueBEq a a = true
  | .null => rfl
  | .bool a => by simp [jvalueBEq]
  | .int a => by simp [jvalueBEq]
  | .float a da => by simp [jvalueBEq]
  | .str a => by simp [jvalueBEq]
  | .list a => by simpa [jvalueBEq] using jlistBEq_refl a
  | .dict a => by simpa [jvalueBEq] using jdictBEq_refl a

theorem jlistBEq_refl : ∀ a, jlistBEq a a = true
  | [] => rfl
  | x :: xs => by
    simp only [jlistBEq, Bool.and_eq_true]
    exact ⟨jvalueBEq_refl x, jlistBEq_refl xs⟩

theorem jdictBEq_refl : ∀ a, jdictBEq a a = true
  | [] => rfl
  | (k, v) :: xs => by
    simp only [jdictBEq, Bool.and_eq_true]
    exact ⟨⟨by simp, jvalueBEq_refl v⟩, jdictBEq_refl xs⟩

end

instance : DecidableEq JValue := fun a b =>
  if h : jvalueBEq a b = true then .isTrue (jvalueBEq_sound a b h)
  else .isFalse (fun e => h (e ▸ jvalueBEq_refl a))

/-- A Python dict with string keys, in insertion order. -/
abbrev JObj := List (String × JValue)

/-- Value of `d[key]` / `d.get(key)`: the entry of the first matching key. -/
def dictFind : JObj → String → Option JValue
  | [], _ => none
  | (k, v) :: rest, key => if k = key then some v else dictFind rest key

/-- Python `d.get(key, default)`. -/
def dictFindD (d : JObj) (key : String) (default : JValue) : JValue :=
  (dictFind d key).getD default

/-- Python `key in d`. -/
def dictContains (d : JObj) (key : String) : Bool :=
  (dictFind d key).isSome

/-- Python `d[key] = v`: replace the value of an existing key in place,
otherwise append the new entry (insertion order). -/
def dictSet : JObj → String → JValue → JObj
  | [], key, v => [(key, v)]
  | (k, w) :: rest, key, v =>
    if k = key then (k, v) :: rest else (k, w) :: dictSet rest key v

/-- Python truthiness `bool(v)` of a JSON-compatible value. -/
def truthy : JValue → Bool
  | .null => false
  | .bool b => b
  | .int n => n != 0
  | .float num _ => num != 0
  | .str s => !s.isEmpty
  | .list items => !items.isEmpty
  | .dict entries => !entries.isEmpty

/-- Removes trailing decimal zeros: divides out factors of 10 while
the decimal exponent allows. -/
def stripZerosNat : Nat → Nat → Nat × Nat
  | n, 0 => (n, 0)
  | n, d + 1 => if n % 10 = 0 then stripZerosNat (n / 10) d else (n, d + 1)

/-- Python `str` of a float modelled as `num / 10 ^ den10`: minimal
decimal digits, always at least one digit after the point (the
scientific notation Python switches to at extreme magnitudes is
outside the modelled fragment). -/
def pyStrFloat (num : Int) (den10 : Nat) : String :=
  let sign := if num < 0 then "-" else ""
  let p := stripZerosNat num.natAbs den10
  if p.2 = 0 then sign ++ toString p.1 ++ ".0"
  else
    let fs := toString (p.1 % 10 ^ p.2)
    sign ++ toString (p.1 / 10 ^ p.2) ++ "." ++
      String.mk (List.replicate (p.2 - fs.length) '0') ++ fs

mutual

/-- Python `repr` of a JSON-compatible value, as used by `str` on
containers: strings single-quoted, `None`/`True`/`False` spelled as in
Python, dicts and lists with `, ` separators. -/
def pyRepr : JValue → String
  | .null => "None"
  | .bool b => if b then "True" else "False"
  | .int n => toString n
  | .float num den10 => pyStrFloat num den10
  | .str s => "\x27" ++ s ++ "\x27"
  | .list items => "[" ++ String.intercalate ", " (pyReprItems items) ++ "]"
  | .dict entries =>
    "\x7b" ++ String.intercalate ", " (pyReprEntries entries) ++ "\x7d"

/-- Renders each item of a list with `pyRepr`. -/
def pyReprItems : List JValue → List String
  | [] => []
  | v :: rest => pyRepr v :: pyReprItems rest

/-- Renders each entry of a dict as `'key': value`. -/
def pyReprEntries : List (String × JValue) → List String
  | [] => []
  | (k, v) :: rest => ("\x27" ++ k ++ "\x27: " ++ pyRepr v) :: pyReprEntries rest

end

/-- Python `str(v)`: the string itself for strings, `repr`-style
rendering otherwise. -/
def pyStr : JValue → String
  | .str s => s
  | v => pyRepr v

/-- One step of the two `for key, value in ...` loops of
`WorkflowEngine._merge_data`: add the entry only when the key is not
already present. -/
def addIfAbsent (m : JObj) (kv : String × JValue) : JObj :=
  if dictContains m kv.1 then m else dictSet m kv.1 kv.2

/-- The `if isinstance(node_output, dict)` loop of
`WorkflowEngine._merge_data`: lift the node output's top-level keys
into the merged data where absent. -/
def mergeOutput (m : JObj) : JValue → JObj
  | .dict entries => entries.foldl addIfAbsent m
  | _ => m

/-- The `if "payload" in current_data` loop of
`WorkflowEngine._merge_data`: lift the keys of
`current_data["payload"]` (when that value is a dict) into the merged
data where absent. -/
def mergePayload (current_data m : JObj) : JObj :=
  match dictFind current_data "payload" with
  | some (.dict payload) => payload.foldl addIfAbsent m
  | _ => m

/-- Embeds `WorkflowEngine._merge_data` (`app/workflow_engine.py`):
copy the current data, bind the node's full output under the node id
(overwriting that key if present), then lift the node output's
top-level keys and finally the keys of `current_data["payload"]`, each
only where the key is not already present. -/
def merge_data (current_data : JObj) (node_output : JValue) (node_id : String) : JObj :=
  mergePayload current_data (mergeOutput (dictSet current_data node_id node_output) node_output)

/-- The execution context produced by folding
`WorkflowEngine._merge_data` over the successful node outputs of a run,
exactly as the loop in `WorkflowEngine._execute_nodes` updates
`current_data`; `steps` lists each executed node's id and output in
execution order. -/
def run_merges (init : JObj) : List (String × JValue) → JObj
  | [] => init
  | (node_id, output) :: rest => run_merges (merge_data init output node_id) rest

example :
    merge_data [("payload", .dict [("x", .int 1)])]
      (.dict [("x", .int 2), ("y", .int 3)]) "n1" =
    [("payload", .dict [("x", .int 1)]),
     ("n1", .dict [("x", .int 2), ("y", .int 3)]),
     ("x", .int 2), ("y", .int 3)] := by decide

lemma dictFind_dictSet_self : ∀ (d : JObj) (k : String) (v : JValue),
    dictFind (dictSet d k v) k = some v
  | [], k, v => by simp [dictSet, dictFind]
  | (k1, w) :: rest, k, v => by
    by_cases h : k1 = k
    · simp [dictSet, dictFind, h]
    · simp [dictSet, dictFind, h, dictFind_dictSet_self rest k v]

lemma dictFind_dictSet_ne : ∀ (d : JObj) (k k2 : String) (v : JValue), k2 ≠ k →
    dictFind (dictSet d k v) k2 = dictFind d k2
  | [], k, k2, v, h => by simp [dictSet, dictFind, Ne.symm h]
  | (k1, w) :: rest, k, k2, v, h => by
    by_cases h1 : k1 = k
    · subst h1
      simp [dictSet, dictFind, Ne.symm h]
    · simp only [dictSet, if_neg h1, dictFind]
      by_cases h2 : k1 = k2
      · simp [h2]
      · simp [h2, dictFind_dictSet_ne rest k k2 v h]

lemma dictContains_dictSet_ne (d : JObj) (k k2 : String) (v : JValue) (h : k2 ≠ k) :
    dictContains (dictSet d k v) k2 = dictContains d k2 := by
  simp [dictContains, dictFind_dictSet_ne d k k2 v h]

lemma foldl_addIfAbsent_preserve : ∀ (es : JObj) (m : JObj) (k : String) (v : JValue),
    dictFind m k = some v → dictFind (es.foldl addIfAbsent m) k = some v
  | [], _, _, _, h => h
  | (k1, w) :: rest, m, k, v, h => by
    simp only [List.foldl_cons]
    apply foldl_addIfAbsent_preserve rest
    unfold addIfAbsent
    by_cases hc : dictContains m k1
    · simpa [hc] using h
    · by_cases hk : k = k1
      · exact absurd (hk ▸ congrArg Option.isSome h) (by simpa [dictContains] using hc)
      · simpa [hc, dictFind_dictSet_ne m k1 k w (by exact hk)] using h

lemma foldl_addIfAbsent_new : ∀ (es : JObj) (m : JObj) (k : String) (w : JValue),
    dictFind es k = some w → dictContains m k = false →
    dictFind (es.foldl addIfAbsent m) k = some w
  | [], _, _, _, h, _ => by simp [dictFind] at h
  | (k1, v1) :: rest, m, k, w, h, habs => by
    simp only [List.foldl_cons]
    by_cases hk : k1 = k
    · subst hk
      have hv : v1 = w := by simpa [dictFind] using h
      subst hv
      apply foldl_addIfAbsent_preserve
      have hc : dictContains m k1 = false := habs
      simp [addIfAbsent, hc, dictFind_dictSet_self]
    · have h' : dictFind rest k = some w := by simpa [dictFind, hk] using h
      apply foldl_addIfAbsent_new rest _ k w h'
      unfold addIfAbsent
      by_cases hc : dictContains m k1
      · simpa [hc] using habs
      · simpa [hc, dictContains_dictSet_ne m k1 k v1 (fun e => hk e.symm)] using habs

lemma mergeOutput_preserve (m : JObj) (out : JValue) (k : String) (v : JValue)
    (h : dictFind m k = some v) : dictFind (mergeOutput m out) k = some v := by
  cases out <;> first
    | exact h
    | exact foldl_addIfAbsent_preserve _ m k v h

lemma mergePayload_preserve (current m : JObj) (k : String) (v : JValue)
    (h : dictFind m k = some v) : dictFind (mergePayload current m) k = some v := by
  unfold mergePayload
  rcases hp : dictFind current "payload" with _ | p
  · exact h
  · cases p <;> first
      | exact h
      | exact foldl_addIfAbsent_preserve _ m k v h

lemma merge_data_find_self (ctx : JObj) (out : JValue) (nid : String) :
    dictFind (merge_data ctx out nid) nid = some out := by
  unfold merge_data
  exact mergePayload_preserve _ _ _ _
    (mergeOutput_preserve _ _ _ _ (dictFind_dictSet_self ctx nid out))

lemma merge_data_preserve (ctx : JObj) (out : JValue) (nid k : String) (v : JValue)
    (hk : k ≠ nid) (h : dictFind ctx k = some v) :
    dictFind (merge_data ctx out nid) k = some v := by
  unfold merge_data
  exact mergePayload_preserve _ _ _ _
    (mergeOutput_preserve _ _ _ _ ((dictFind_dictSet_ne ctx nid k out hk).trans h))

lemma run_merges_preserve : ∀ (steps : List (String × JValue)) (init : JObj)
    (k : String) (v : JValue), dictFind init k = some v →
    (∀ s ∈ steps, s.1 ≠ k) → dictFind (run_merges init steps) k = some v
  | [], _, _, _, h, _ => h
  | (nid, out) :: rest, init, k, v, h, hne => by
    have h1 : nid ≠ k := hne (nid, out) (List.mem_cons_self _ _)
    exact run_merges_preserve rest _ k v
      (merge_data_preserve init out nid k v (fun e => h1 e.symm) h)
      (fun s hs => hne s (List.mem_cons_of_mem _ hs))

/-- C1 amended: merging node `n1`'s output `\x7bx:2, y:3\x7d` into the
context `\x7bpayload:\x7bx:1\x7d\x7d` binds the full output under
`"n1"` and lifts `y` to the top level, but the top-level `x` comes
from the node output (lifted before the payload keys), so
`context["x"] == 2`, not `1`. -/
theorem c1_merge_example :
    dictFind (merge_data [("payload", .dict [("x", .int 1)])]
        (.dict [("x", .int 2), ("y", .int 3)]) "n1") "n1" =
      some (.dict [("x", .int 2), ("y", .int 3)]) ∧
    dictFind (merge_data [("payload", .dict [("x", .int 1)])]
        (.dict [("x", .int 2), ("y", .int 3)]) "n1") "x" = some (.int 2) ∧
    dictFind (merge_data [("payload", .dict [("x", .int 1)])]
        (.dict [("x", .int 2), ("y", .int 3)]) "n1") "y" = some (.int 3) := by
  decide

/-- C1 as stated is false on the code: merging node `n1`'s output
`{x:2, y:3}` into the context `{payload:{x:1}}` yields top-level
`context["x"] == 2` (the node output's value), not `1`. -/
theorem c1_counterexample :
    ¬ dictFind (merge_data [("payload", .dict [("x", .int 1)])]
        (.dict [("x", .int 2), ("y", .int 3)]) "n1") "x" = some (.int 1) := by
  decide

/-- C3 as stated is false on the code: a top-level key set by the
trigger payload (here `"n1"`, value `0`) is overwritten by a later
node's merge when that node's id equals the key, because the binding
of the output under the node id is unconditional. -/
theorem c3_counterexample :
    ¬ dictFind (run_merges [("n1", .int 0)] [("n1", .dict [("x", .int 2)])]) "n1" =
      some (.int 0) := by
  decide

/-- C3 amended: over every run, a top-level key present in the context
is left unchanged by every later merge whose node id differs from the
key (first-writer-wins except for node-id collisions), and immediately
after each node's merge the node's full output is the value stored
under that node's id. -/
theorem c3_first_writer_wins :
    (∀ (init : JObj) (steps : List (String × JValue)) (k : String) (v : JValue),
      dictFind init k = some v → (∀ s ∈ steps, s.1 ≠ k) →
      dictFind (run_merges init steps) k = some v) ∧
    (∀ (ctx : JObj) (out : JValue) (nid : String),
      dictFind (merge_data ctx out nid) nid = some out) := by
  exact ⟨fun init steps k v h hne => run_merges_preserve steps init k v h hne,
    merge_data_find_self⟩

/-- Witness for `c3_first_writer_wins` at concrete inputs: the
trigger-payload key `"a"` survives a merge of node `"n1"` whose output
also has key `"a"`, and `"n1"`'s full output sits under `"n1"`. -/
theorem c3_first_writer_wins_witness :
    dictFind (run_merges [("a", .int 1)] [("n1", .dict [("a", .int 9)])]) "a" =
      some (.int 1) ∧
    dictFind (merge_data [("a", .int 1)] (.dict [("a", .int 9)]) "n1") "n1" =
      some (.dict [("a", .int 9)]) :=
  ⟨c3_first_writer_wins.1 [("a", .int 1)] [("n1", .dict [("a", .int 9)])] "a"
      (.int 1) (by decide) (by decide),
    c3_first_writer_wins.2 [("a", .int 1)] (.dict [("a", .int 9)]) "n1"⟩

/-- C10: in `WorkflowEngine._merge_data` the binding of the node's
output under its node id is unconditional and overwrites any existing
top-level key equal to the node id, while keys lifted from the node
output or from `context["payload"]` are added only when absent: any
other key already present keeps its value, and an absent key found in
the node output is added with the output's value. -/
theorem c10_node_id_binding :
    ∀ (ctx : JObj) (out : JValue) (nid : String),
      dictFind (merge_data ctx out nid) nid = some out ∧
      (∀ k, k ≠ nid → dictContains ctx k = true →
        dictFind (merge_data ctx out nid) k = dictFind ctx k) ∧
      (∀ (k : String) (w : JValue) (entries : JObj), k ≠ nid →
        dictContains ctx k = false → dictFind entries k = some w →
        dictFind (merge_data ctx (.dict entries) nid) k = some w) := by
  intro ctx out nid
  refine ⟨merge_data_find_self ctx out nid, fun k hk hc => ?_, fun k w entries hk hc hf => ?_⟩
  · rcases Option.isSome_iff_exists.mp hc with ⟨v, hv⟩
    rw [hv]
    exact merge_data_preserve ctx out nid k v hk hv
  · unfold merge_data
    apply mergePayload_preserve
    show dictFind (mergeOutput (dictSet ctx nid (.dict entries)) (.dict entries)) k = some w
    unfold mergeOutput
    apply foldl_addIfAbsent_new entries _ k w hf
    simpa [dictContains_dictSet_ne ctx nid k (.dict entries) hk] using hc

/-- Witness for `c10_node_id_binding` at concrete inputs: the
trigger-payload key `"n1"` is overwritten by node `n1`'s output, the
existing key `"a"` keeps its value, and the absent key `"b"` is added
from the node output. -/
theorem c10_node_id_binding_witness :
    dictFind (merge_data [("n1", .int 0), ("a", .int 5)]
        (.dict [("a", .int 9), ("b", .int 7)]) "n1") "n1" =
      some (.dict [("a", .int 9), ("b", .int 7)]) ∧
    dictFind (merge_data [("n1", .int 0), ("a", .int 5)]
        (.dict [("a", .int 9), ("b", .int 7)]) "n1") "a" =
      dictFind [("n1", .int 0), ("a", .int 5)] "a" ∧
    dictFind (merge_data [("n1", .int 0), ("a", .int 5)]
        (.dict [("a", .int 9), ("b", .int 7)]) "n1") "b" = some (.int 7) :=
  ⟨(c10_node_id_binding [("n1", .int 0), ("a", .int 5)]
      (.dict [("a", .int 9), ("b", .int 7)]) "n1").1,
    (c10_node_id_binding [("n1", .int 0), ("a", .int 5)]
      (.dict [("a", .int 9), ("b", .int 7)]) "n1").2.1 "a" (by decide) (by decide),
    (c10_node_id_binding [("n1", .int 0), ("a", .int 5)]
      (.dict [("a", .int 9), ("b", .int 7)]) "n1").2.2 "b" (.int 7)
      [("a", .int 9), ("b", .int 7)] (by decide) (by decide) (by decide)⟩

/-- Token scanner mirroring the non-overlapping left-to-right matching
of the regex `\x7b\x7b([^\x7d]+)\x7d\x7d` used by `re.findall` in both
`_substitute_templates` implementations: after `\x7b\x7b`, a maximal
nonempty run of non-`\x7d` characters must be followed by `\x7d\x7d`;
on failure the scan restarts one character later. -/
def scanTokensF : Nat → List Char → List (List Char)
  | 0, _ => []
  | fuel + 1, '\x7b' :: '\x7b' :: rest =>
    let run := rest.takeWhile (fun c => c ≠ '\x7d')
    if run.isEmpty then scanTokensF fuel ('\x7b' :: rest)
    else
      match rest.dropWhile (fun c => c ≠ '\x7d') with
      | '\x7d' :: '\x7d' :: rest2 => run :: scanTokensF fuel rest2
      | _ => scanTokensF fuel ('\x7b' :: rest)
  | fuel + 1, _ :: rest => scanTokensF fuel rest
  | _ + 1, [] => []

/-- Entry point of the scanner; the fuel `l.length` strictly exceeds
the list length at every recursive call, so it never runs out. -/
def scanTokens (l : List Char) : List (List Char) :=
  scanTokensF l.length l

/-- Python `s.replace(pat, repl)` on character lists: replaces every
non-overlapping occurrence from the left (the callers always pass a
nonempty pattern; the fuel `l.length` never runs out). -/
def listReplaceF (pat repl : List Char) : Nat → List Char → List Char
  | _, [] => []
  | 0, l => l
  | fuel + 1, c :: rest =>
    if pat.isPrefixOf (c :: rest) && !pat.isEmpty then
      repl ++ listReplaceF pat repl fuel (rest.drop (pat.length - 1))
    else c :: listReplaceF pat repl fuel rest

/-- Entry point of the replacement pass. -/
def listReplace (pat repl l : List Char) : List Char :=
  listReplaceF pat repl l.length l

/-- ASCII whitespace as recognised by Python `str.strip()`. -/
def isPySpace (c : Char) : Bool :=
  c = ' ' || c = '\t' || c = '\n' || c = '\r' || c = '\x0b' || c = '\x0c'

/-- Python `s.strip()` on a character list. -/
def listStrip (l : List Char) : List Char :=
  ((l.dropWhile isPySpace).reverse.dropWhile isPySpace).reverse

/-- Helper of `splitDot`, accumulating the current segment reversed. -/
def splitDotAux : List Char → List Char → List String
  | [], acc => [String.mk acc.reverse]
  | '.' :: rest, acc => String.mk acc.reverse :: splitDotAux rest []
  | c :: rest, acc => splitDotAux rest (c :: acc)

/-- Python `s.split(".")`: the segments between the dots, with empty
segments preserved (`"".split(".") == [""]`). -/
def splitDot (l : List Char) : List String :=
  splitDotAux l []

/-- The path walk shared by both `_substitute_templates`
implementations and by `FilterNode._get_value`: follow dot-separated
parts through nested dicts, yielding `None` (here `.null`) as soon as a
part is missing or an intermediate value is not a dict. -/
def resolvePath : JValue → List String → JValue
  | v, [] => v
  | .dict entries, part :: rest => resolvePath (dictFindD entries part .null) rest
  | _, _ :: _ => .null

/-- The literal text `\x7b\x7bg\x7d\x7d` of a template token whose
captured group is `g`. -/
def tokenPattern (g : List Char) : List Char :=
  '\x7b' :: '\x7b' :: (g ++ ['\x7d', '\x7d'])

/-- Replacement text for a resolved token value: `FilterNode` (`quote =
true`) wraps resolved strings in double quotes, `HTTPRequestNode`
(`quote = false`) inserts them bare; both use Python `str` for
non-string values. -/
def substRepl (quote : Bool) : JValue → List Char
  | .str s => if quote then '\"' :: (s.toList ++ ['\"']) else s.toList
  | v => (pyStr v).toList

/-- One iteration of the `for match in matches` loop of
`_substitute_templates`: resolve the token's dot-path against the data
and, unless the value is `None`, replace every occurrence of the token
text in the running result. -/
def substOne (quote : Bool) (data : JObj) (r : List Char) (g : List Char) : List Char :=
  match resolvePath (.dict data) (splitDot (listStrip g)) with
  | .null => r
  | v => listReplace (tokenPattern g) (substRepl quote v) r

/-- The full substitution pass of `_substitute_templates`: fold the
per-token replacement over the tokens found in the original template. -/
def substituteTokens (quote : Bool) (data : JObj) (template : List Char) : List Char :=
  (scanTokens template).foldl (substOne quote data) template

/-- Embeds `FilterNode._substitute_templates`
(`app/nodes/filter_node.py`): resolved strings are inserted surrounded
by double quotes. -/
def filter_substitute_templates (template : String) (data : JObj) : String :=
  String.mk (substituteTokens true data template.toList)

/-- Embeds `HTTPRequestNode._substitute_templates`
(`app/nodes/http_request.py`): resolved values are inserted via
Python `str`, strings bare. -/
def http_substitute_templates (template : String) (data : JObj) : String :=
  String.mk (substituteTokens false data template.toList)

example :
    filter_substitute_templates "\x7b\x7bx\x7d\x7d == 5" [("x", .int 5)] =
      "5 == 5" := by decide

example :
    filter_substitute_templates "\x7b\x7bx\x7d\x7d == \"a\"" [("x", .str "a")] =
      "\"a\" == \"a\"" := by decide

example :
    http_substitute_templates "\x7b\x7bx\x7d\x7d" [("x", .str "a")] = "a" := by
  decide

example :
    http_substitute_templates "\x7b\x7ba.b\x7d\x7d!" [("a", .dict [("b", .int 5)])] =
      "5!" := by decide

example :
    filter_substitute_templates "\x7b\x7bmissing\x7d\x7d" [("x", .int 5)] =
      "\x7b\x7bmissing\x7d\x7d" := by decide

lemma takeWhile_append_of_all {α : Type} (p : α → Bool) : ∀ (l t : List α),
    (∀ c ∈ l, p c = true) → (l ++ t).takeWhile p = l ++ t.takeWhile p
  | [], t, _ => rfl
  | c :: rest, t, h => by
    have hc : p c = true := h c (List.mem_cons_self _ _)
    simp only [List.cons_append, List.takeWhile_cons, hc, if_true]
    rw [takeWhile_append_of_all p rest t (fun x hx => h x (List.mem_cons_of_mem _ hx))]

lemma dropWhile_append_of_all {α : Type} (p : α → Bool) : ∀ (l t : List α),
    (∀ c ∈ l, p c = true) → (l ++ t).dropWhile p = t.dropWhile p
  | [], t, _ => rfl
  | c :: rest, t, h => by
    have hc : p c = true := h c (List.mem_cons_self _ _)
    simp only [List.cons_append, List.dropWhile_cons, hc, if_true]
    exact dropWhile_append_of_all p rest t (fun x hx => h x (List.mem_cons_of_mem _ hx))

lemma scanTokensF_nil : ∀ fuel, scanTokensF fuel [] = []
  | 0 => rfl
  | _ + 1 => rfl

lemma scanTokens_token (p : List Char) (hp : p ≠ [])
    (hnb : ∀ c ∈ p, c ≠ '\x7b' ∧ c ≠ '\x7d') :
    scanTokens (tokenPattern p) = [p] := by
  have hlen : (tokenPattern p).length = (p.length + 3) + 1 := by
    simp [tokenPattern]
  have htake : (p ++ ['\x7d', '\x7d']).takeWhile (fun c => c ≠ '\x7d') = p := by
    rw [takeWhile_append_of_all _ p _ (fun c hc => by simp [(hnb c hc).2])]
    simp [List.takeWhile_cons]
  have hdrop : (p ++ ['\x7d', '\x7d']).dropWhile (fun c => c ≠ '\x7d') =
      ['\x7d', '\x7d'] := by
    rw [dropWhile_append_of_all _ p _ (fun c hc => by simp [(hnb c hc).2])]
    simp [List.dropWhile_cons]
  unfold scanTokens
  rw [hlen]
  show scanTokensF ((p.length + 3) + 1) ('\x7b' :: '\x7b' :: (p ++ ['\x7d', '\x7d'])) = [p]
  rw [scanTokensF]
  simp only [htake, hdrop]
  rw [if_neg (by simpa [List.isEmpty_iff] using hp)]
  exact congrArg (p :: ·) (scanTokensF_nil _)

lemma isPrefixOf_self : ∀ (l : List Char), l.isPrefixOf l = true
  | [] => rfl
  | c :: rest => by
    simp only [List.isPrefixOf, beq_self_eq_true, Bool.true_and]
    exact isPrefixOf_self rest

lemma listReplaceF_nil (pat repl : List Char) : ∀ fuel, listReplaceF pat repl fuel [] = []
  | 0 => rfl
  | _ + 1 => rfl

lemma listReplace_self (pat repl : List Char) (hp : pat ≠ []) :
    listReplace pat repl pat = repl := by
  obtain ⟨c, rest, rfl⟩ := List.exists_cons_of_ne_nil hp
  unfold listReplace
  rw [List.length_cons, listReplaceF]
  rw [if_pos (by simp [isPrefixOf_self])]
  simp [List.drop_length, listReplaceF_nil]

lemma substituteTokens_token (quote : Bool) (d : JObj) (p : List Char) (hp : p ≠ [])
    (hnb : ∀ c ∈ p, c ≠ '\x7b' ∧ c ≠ '\x7d') :
    substituteTokens quote d (tokenPattern p) =
      match resolvePath (.dict d) (splitDot (listStrip p)) with
      | .null => tokenPattern p
      | v => substRepl quote v := by
  unfold substituteTokens
  rw [scanTokens_token p hp hnb]
  show substOne quote d (tokenPattern p) p = _
  unfold substOne
  have hne : tokenPattern p ≠ [] := by simp [tokenPattern]
  cases resolvePath (.dict d) (splitDot (listStrip p)) <;>
    simp [listReplace_self _ _ hne]

lemma stringMk_toList (s : String) : String.mk s.toList = s := by
  cases s
  rfl

lemma token_string_toList (p : String) :
    ("\x7b\x7b" ++ p ++ "\x7d\x7d").toList = tokenPattern p.toList := by
  show ("\x7b\x7b" ++ p ++ "\x7d\x7d").data = _
  rw [String.data_append, String.data_append]
  show ['\x7b', '\x7b'] ++ p.data ++ ['\x7d', '\x7d'] = _
  simp [tokenPattern, String.toList]

/-- C9: on a single-token template `\x7b\x7bp\x7d\x7d`, the filter
node's substitution inserts a resolved string surrounded by double
quotes while the HTTP node's substitution inserts it bare; both insert
non-string resolved values via Python `str`; and a token that resolves
to `None` (missing path, non-dict intermediate, or a stored null) is
left unchanged by both.  Concretely, `\x7b\x7bx\x7d\x7d == "a"` with
`x = "a"` becomes `"a" == "a"` under the filter substitution and
`a == "a"` under the HTTP substitution. -/
theorem c9_substitution_difference :
    (∀ (p : String) (d : JObj) (v : JValue),
      p.toList ≠ [] →
      (∀ c ∈ p.toList, c ≠ '\x7b' ∧ c ≠ '\x7d') →
      resolvePath (.dict d) (splitDot (listStrip p.toList)) = v →
      v ≠ .null →
      http_substitute_templates ("\x7b\x7b" ++ p ++ "\x7d\x7d") d = pyStr v ∧
      filter_substitute_templates ("\x7b\x7b" ++ p ++ "\x7d\x7d") d =
        (match v with
         | .str s => "\"" ++ s ++ "\""
         | w => pyStr w)) ∧
    (∀ (p : String) (d : JObj),
      p.toList ≠ [] →
      (∀ c ∈ p.toList, c ≠ '\x7b' ∧ c ≠ '\x7d') →
      resolvePath (.dict d) (splitDot (listStrip p.toList)) = .null →
      filter_substitute_templates ("\x7b\x7b" ++ p ++ "\x7d\x7d") d =
        "\x7b\x7b" ++ p ++ "\x7d\x7d" ∧
      http_substitute_templates ("\x7b\x7b" ++ p ++ "\x7d\x7d") d =
        "\x7b\x7b" ++ p ++ "\x7d\x7d") ∧
    filter_substitute_templates "\x7b\x7bx\x7d\x7d == \"a\"" [("x", .str "a")] =
      "\"a\" == \"a\"" ∧
    http_substitute_templates "\x7b\x7bx\x7d\x7d == \"a\"" [("x", .str "a")] =
      "a == \"a\"" := by
  refine ⟨fun p d v hp hnb hv hnull => ?_, fun p d hp hnb hv => ?_, by decide, by decide⟩
  · have ht := token_string_toList p
    constructor
    · unfold http_substitute_templates
      rw [ht, substituteTokens_token false d p.toList hp hnb]
      cases v with
      | null => exact absurd rfl hnull
      | str s => rw [hv]; exact stringMk_toList s
      | _ => rw [hv]; exact stringMk_toList _
    · unfold filter_substitute_templates
      rw [ht, substituteTokens_token true d p.toList hp hnb]
      cases v with
      | null => exact absurd rfl hnull
      | str s =>
        rw [hv]
        refine String.toList_inj.mp ?_
        show '\"' :: (s.toList ++ ['\"']) = ("\"" ++ s ++ "\"").data
        rw [String.data_append, String.data_append]
        rfl
      | _ => rw [hv]; exact stringMk_toList _
  · have ht := token_string_toList p
    constructor
    · unfold filter_substitute_templates
      rw [ht, substituteTokens_token true d p.toList hp hnb, hv]
      exact String.toList_inj.mp ht.symm
    · unfold http_substitute_templates
      rw [ht, substituteTokens_token false d p.toList hp hnb, hv]
      exact String.toList_inj.mp ht.symm

/-- Witness for `c9_substitution_difference` at concrete inputs:
substituting `x = "a"` into the token `\x7b\x7bx\x7d\x7d` quotes the
string in the filter node and inserts it bare in the HTTP node, and a
missing path leaves the token unchanged. -/
theorem c9_substitution_difference_witness :
    http_substitute_templates "\x7b\x7bx\x7d\x7d" [("x", .str "a")] = "a" ∧
    filter_substitute_templates "\x7b\x7bx\x7d\x7d" [("x", .str "a")] = "\"a\"" ∧
    filter_substitute_templates "\x7b\x7bmissing\x7d\x7d" [("x", .str "a")] =
      "\x7b\x7bmissing\x7d\x7d" :=
  ⟨(c9_substitution_difference.1 "x" [("x", .str "a")] (.str "a") (by decide)
      (by decide) (by decide) (by decide)).1,
    (c9_substitution_difference.1 "x" [("x", .str "a")] (.str "a") (by decide)
      (by decide) (by decide) (by decide)).2,
    (c9_substitution_difference.2.1 "missing" [("x", .str "a")] (by decide)
      (by decide) (by decide)).1⟩

/-- Digit-string accumulator: `none` once a non-digit is seen. -/
def parseDigitsAux : Option Nat → List Char → Option Nat
  | acc, [] => acc
  | some n, c :: rest =>
    if c.isDigit then parseDigitsAux (some (n * 10 + (c.toNat - 48))) rest
    else none
  | none, _ => none

/-- A nonempty all-digit string as a natural number. -/
def parseDigits (l : List Char) : Option Nat :=
  if l.isEmpty then none else parseDigitsAux (some 0) l

/-- Python `int(s)` on an already-stripped string: optional sign and a
nonempty digit run; `none` models the `ValueError` (digit-group
underscores are outside the modelled fragment). -/
def parsePyInt : List Char → Option Int
  | '+' :: rest => (parseDigits rest).map Int.ofNat
  | '-' :: rest => (parseDigits rest).map (fun n => -(n : Int))
  | l => (parseDigits l).map Int.ofNat

/-- Splits a character list at the first occurrence of `c`. -/
def splitFirstChar (c : Char) : List Char → Option (List Char × List Char)
  | [] => none
  | x :: rest =>
    if x = c then some ([], rest)
    else
      match splitFirstChar c rest with
      | some (a, b) => some (x :: a, b)
      | none => none

/-- The mantissa of a Python float literal as `num / 10 ^ den10`:
digits with an optional single decimal point, at least one digit
overall. -/
def parseMantissa (l : List Char) : Option (Int × Nat) :=
  match splitFirstChar '.' l with
  | none => (parseDigits l).map (fun n => ((n : Int), 0))
  | some (ip, fp) =>
    if ip.isEmpty then
      (parseDigits fp).map (fun n => ((n : Int), fp.length))
    else if fp.isEmpty then (parseDigits ip).map (fun n => ((n : Int), 0))
    else
      match parseDigits ip, parseDigits fp with
      | some i, some f =>
        some (((i : Int) * (10 : Int) ^ fp.length + (f : Int), fp.length))
      | _, _ => none

/-- Splits at the first exponent marker `e`/`E`. -/
def splitExpChar : List Char → Option (List Char × List Char)
  | [] => none
  | x :: rest =>
    if x = 'e' || x = 'E' then some ([], rest)
    else
      match splitExpChar rest with
      | some (a, b) => some (x :: a, b)
      | none => none

/-- Python `float(s)` on an already-stripped string: optional sign,
mantissa, optional exponent; `none` models the `ValueError`
(`inf`/`nan` spellings are outside the modelled fragment, unreachable
from the engine's conditions). -/
def parsePyFloatChars (l : List Char) : Option (Int × Nat) :=
  let signed : List Char × Int :=
    match l with
    | '+' :: rest => (rest, 1)
    | '-' :: rest => (rest, -1)
    | rest => (rest, 1)
  match splitExpChar signed.1 with
  | none => (parseMantissa signed.1).map (fun m => (signed.2 * m.1, m.2))
  | some (m, ex) =>
    let eneg : Bool := match ex with | '-' :: _ => true | _ => false
    let edigits : List Char := match ex with
      | '+' :: rest => rest
      | '-' :: rest => rest
      | rest => rest
    match parseMantissa m, parseDigits edigits with
    | some mv, some ev =>
      if eneg then some ((signed.2 * mv.1, mv.2 + ev))
      else some ((signed.2 * mv.1 * (10 : Int) ^ ev, mv.2))
    | _, _ => none

/-- The numeric view Python's `==` and ordering use across `bool`,
`int` and `float` (`True == 1`, `5 == 5.0`), as an exact decimal
fraction `num / 10 ^ den10`. -/
def asNum? : JValue → Option (Int × Nat)
  | .bool b => some (if b then 1 else 0, 0)
  | .int n => some (n, 0)
  | .float num den10 => some (num, den10)
  | _ => none

/-- Value equality of two decimal fractions, by cross-multiplication. -/
def numEq (a b : Int × Nat) : Bool :=
  a.1 * (10 : Int) ^ b.2 == b.1 * (10 : Int) ^ a.2

/-- Value order of two decimal fractions, by cross-multiplication. -/
def numLt (a b : Int × Nat) : Bool :=
  decide (a.1 * (10 : Int) ^ b.2 < b.1 * (10 : Int) ^ a.2)

mutual

/-- Node count of a value, used as recursion fuel for Python `==`. -/
def jsize : JValue → Nat
  | .list items => jsizeList items + 1
  | .dict entries => jsizeEntries entries + 1
  | _ => 1

/-- Node count of a value list. -/
def jsizeList : List JValue → Nat
  | [] => 1
  | v :: rest => jsize v + jsizeList rest + 1

/-- Node count of a dict entry list. -/
def jsizeEntries : JObj → Nat
  | [] => 1
  | (_, v) :: rest => jsize v + jsizeEntries rest + 1

end

mutual

/-- Fuelled Python `==`: numeric kinds compare by value, strings by
contents, `None` only to `None`, lists pointwise and dicts by key
lookup (Python dict equality ignores insertion order; dict keys are
unique in every dict the engine builds).  Every call consumes one unit
of fuel; the entry point seeds enough for the deepest path. -/
def pyEqF : Nat → JValue → JValue → Bool
  | 0, _, _ => false
  | fuel + 1, a, b =>
    match asNum? a, asNum? b with
    | some x, some y => numEq x y
    | _, _ =>
      match a, b with
      | .null, .null => true
      | .str s, .str t => s == t
      | .list xs, .list ys => pyEqListF fuel xs ys
      | .dict xs, .dict ys => xs.length == ys.length && pyEqEntriesF fuel xs ys
      | _, _ => false

/-- Fuelled pointwise Python `==` on lists. -/
def pyEqListF : Nat → List JValue → List JValue → Bool
  | 0, _, _ => false
  | _ + 1, [], [] => true
  | fuel + 1, x :: xs, y :: ys => pyEqF fuel x y && pyEqListF fuel xs ys
  | _ + 1, _, _ => false

/-- Fuelled check that every entry of the first dict appears in the
second with an equal value. -/
def pyEqEntriesF : Nat → JObj → JObj → Bool
  | 0, _, _ => false
  | _ + 1, [], _ => true
  | fuel + 1, (k, v) :: rest, ys => pyEqFindF fuel k v ys && pyEqEntriesF fuel rest ys

/-- Fuelled lookup of `k` in the entry list, comparing the values. -/
def pyEqFindF : Nat → String → JValue → JObj → Bool
  | 0, _, _, _ => false
  | _ + 1, _, _, [] => false
  | fuel + 1, k, v, (k2, w) :: rest =>
    if k2 = k then pyEqF fuel v w else pyEqFindF fuel k v rest

end

/-- Python `==` on JSON-compatible values (entry point; the fuel
`jsize a + jsize b` bounds the recursion depth, which consumes at most
one size unit per step). -/
def pyEq (a b : JValue) : Bool :=
  pyEqF (jsize a + jsize b) a b

/-- Python `float(x)` as applied by the numeric branches of
`FilterNode._simple_condition_evaluation`: numbers and booleans
coerce, numeric strings parse (after stripping), everything else —
including `None` — raises (`none`). -/
def pyFloatCoerce : JValue → Option (Int × Nat)
  | .int n => some (n, 0)
  | .float num den10 => some (num, den10)
  | .bool b => some (if b then 1 else 0, 0)
  | .str s => parsePyFloatChars (listStrip s.toList)
  | _ => none

/-- Whether the expression is wrapped in a pair of the given quote
character (Python `startswith`/`endswith`, both true for a lone
quote). -/
def quotedBy (e : List Char) (q : Char) : Bool :=
  match e with
  | [] => false
  | c :: _ => c = q && (e.getLast? = some q)

/-- Embeds `FilterNode._get_value` (`app/nodes/filter_node.py`): strip,
then in order try quoted string literal, number (`float` when the text
contains a dot, else `int`), the case-insensitive literals
`true`/`false`/`none`, a dotted context path, and finally a plain
top-level key lookup (missing keys give `None`). -/
def get_value (expression : String) (data : JObj) : JValue :=
  let e := listStrip expression.toList
  if quotedBy e '\"' || quotedBy e '\x27' then .str (String.mk ((e.drop 1).dropLast))
  else
    match
      (if e.contains '.' then (parsePyFloatChars e).map (fun p => JValue.float p.1 p.2)
       else (parsePyInt e).map JValue.int) with
    | some v => v
    | none =>
      let low := String.mk (e.map Char.toLower)
      if low = "true" then .bool true
      else if low = "false" then .bool false
      else if low = "none" then .null
      else if e.contains '.' then resolvePath (.dict data) (splitDot e)
      else dictFindD data (String.mk e) .null

/-- Splits a character list around the first occurrence of `pat`
(Python `split(pat, 1)` when `pat` occurs, with the separator
removed). -/
def splitFirstList (pat : List Char) : List Char → Option (List Char × List Char)
  | [] => if pat.isEmpty then some ([], []) else none
  | c :: rest =>
    if pat.isPrefixOf (c :: rest) then some ([], (c :: rest).drop pat.length)
    else
      match splitFirstList pat rest with
      | some (a, b) => some (c :: a, b)
      | none => none

/-- A numeric branch of `_simple_condition_evaluation`: coerce both
operand values with `float()` and compare; a failed coercion is the
exception that propagates out of the evaluator (`none`). -/
def floatComparison (l r : List Char) (data : JObj)
    (f : Int × Nat → Int × Nat → Bool) : Option Bool :=
  match pyFloatCoerce (get_value (String.mk l) data),
      pyFloatCoerce (get_value (String.mk r) data) with
  | some a, some b => some (f a b)
  | _, _ => none

/-- Embeds `FilterNode._simple_condition_evaluation`
(`app/nodes/filter_node.py`): strip, then split once on the first of
`" == "`, `" != "`, `" > "`, `" < "`, `" >= "`, `" <= "` found, in that
order; equality operators compare the operand values with Python `==`,
the others compare after `float()` coercion; with no operator present
the single resolved value's truthiness is returned.  `none` models an
exception escaping the method. -/
def simple_condition_evaluation (condition : String) (data : JObj) : Option Bool :=
  let c := listStrip condition.toList
  match splitFirstList (" == ").toList c with
  | some (l, r) =>
    some (pyEq (get_value (String.mk l) data) (get_value (String.mk r) data))
  | none =>
  match splitFirstList (" != ").toList c with
  | some (l, r) =>
    some (!pyEq (get_value (String.mk l) data) (get_value (String.mk r) data))
  | none =>
  match splitFirstList (" > ").toList c with
  | some (l, r) => floatComparison l r data (fun a b => numLt b a)
  | none =>
  match splitFirstList (" < ").toList c with
  | some (l, r) => floatComparison l r data (fun a b => numLt a b)
  | none =>
  match splitFirstList (" >= ").toList c with
  | some (l, r) => floatComparison l r data (fun a b => !numLt a b)
  | none =>
  match splitFirstList (" <= ").toList c with
  | some (l, r) => floatComparison l r data (fun a b => !numLt b a)
  | none => some (truthy (get_value (String.mk c) data))

/-- The character allow-list of `FilterNode._evaluate_condition`. -/
def allowedChars : List Char :=
  ("abcdefghijklmnopqrstuvwxyzABCDEFGHIJKLMNOPQRSTUVWXYZ0123456789 ._()[]\x7b\x7d\"\x27<>=!&|+-*/,%:").toList

/-- The `all(c in allowed_chars for c in condition)` safety check of
`FilterNode._evaluate_condition`; its failure raises inside the `try`
and so routes evaluation to the fallback. -/
def allowlisted (condition : String) : Bool :=
  condition.toList.all (fun c => allowedChars.contains c)

/-- Token of the restricted expression fragment the conditions
exercise. -/
inductive EvalTok where
  | intLit (n : Int)
  | floatLit (num : Int) (den10 : Nat)
  | strLit (s : String)
  | ident (s : String)
  | cmp (op : String)
  deriving Repr, DecidableEq

/-- Lexer for the expression fragment modelled of CPython `eval`:
numbers (integer and decimal literals), single- or double-quoted
strings without escapes, identifiers, and the six comparison
operators.  `none` stands for an expression outside the fragment (a
syntax error or an unmodelled construct); the fuel `l.length` never
runs out. -/
def lexCondF : Nat → List Char → Option (List EvalTok)
  | _, [] => some []
  | 0, _ => none
  | fuel + 1, c :: rest =>
    if isPySpace c then lexCondF fuel rest
    else if c.isDigit then
      let ds := (c :: rest).takeWhile Char.isDigit
      let after := (c :: rest).dropWhile Char.isDigit
      match after with
      | '.' :: rest2 =>
        let fs := rest2.takeWhile Char.isDigit
        let after2 := rest2.dropWhile Char.isDigit
        match parseDigits ds, (if fs.isEmpty then some 0 else parseDigits fs) with
        | some i, some f =>
          (lexCondF fuel after2).map
            (fun ts =>
              .floatLit ((i : Int) * (10 : Int) ^ fs.length + (f : Int)) fs.length :: ts)
        | _, _ => none
      | _ =>
        match parseDigits ds with
        | some i => (lexCondF fuel after).map (fun ts => .intLit (i : Int) :: ts)
        | none => none
    else if c = '\"' || c = '\x27' then
      let content := rest.takeWhile (fun x => x ≠ c)
      match rest.dropWhile (fun x => x ≠ c) with
      | _ :: rest2 => (lexCondF fuel rest2).map (fun ts => .strLit (String.mk content) :: ts)
      | [] => none
    else if c.isAlpha || c = '_' then
      let name := (c :: rest).takeWhile (fun x => x.isAlphanum || x = '_')
      let after := (c :: rest).dropWhile (fun x => x.isAlphanum || x = '_')
      (lexCondF fuel after).map (fun ts => .ident (String.mk name) :: ts)
    else if c = '=' then
      match rest with
      | '=' :: rest2 => (lexCondF fuel rest2).map (fun ts => .cmp "==" :: ts)
      | _ => none
    else if c = '!' then
      match rest with
      | '=' :: rest2 => (lexCondF fuel rest2).map (fun ts => .cmp "!=" :: ts)
      | _ => none
    else if c = '<' then
      match rest with
      | '=' :: rest2 => (lexCondF fuel rest2).map (fun ts => .cmp "<=" :: ts)
      | _ => (lexCondF fuel rest).map (fun ts => .cmp "<" :: ts)
    else if c = '>' then
      match rest with
      | '=' :: rest2 => (lexCondF fuel rest2).map (fun ts => .cmp ">=" :: ts)
      | _ => (lexCondF fuel rest).map (fun ts => .cmp ">" :: ts)
    else none

/-- Value of an atom under the restricted globals/locals of
`FilterNode._evaluate_condition`: the locals bind `data`; the globals
bind `True`/`False`/`None`; any other name is a `NameError` (`none`).
The five callable builtin names of the restricted globals are outside
the modelled fragment and also map to `none`. -/
def evalAtom (data : JObj) : EvalTok → Option JValue
  | .intLit n => some (.int n)
  | .floatLit num den10 => some (.float num den10)
  | .strLit s => some (.str s)
  | .ident s =>
    if s = "data" then some (.dict data)
    else if s = "True" then some (.bool true)
    else if s = "False" then some (.bool false)
    else if s = "None" then some .null
    else none
  | .cmp _ => none

/-- Python comparison between two values: `==`/`!=` use Python
equality; the order operators work on numeric kinds by value and on
strings lexicographically, and raise a `TypeError` (`none`) on any
other operand combination. -/
def pyCompare (op : String) (a b : JValue) : Option Bool :=
  if op = "==" then some (pyEq a b)
  else if op = "!=" then some (!pyEq a b)
  else
    match asNum? a, asNum? b with
    | some x, some y =>
      if op = "<" then some (numLt x y)
      else if op = ">" then some (numLt y x)
      else if op = "<=" then some (!numLt y x)
      else if op = ">=" then some (!numLt x y)
      else none
    | _, _ =>
      match a, b with
      | .str s, .str t =>
        if op = "<" then some (decide (s < t))
        else if op = ">" then some (decide (t < s))
        else if op = "<=" then some (decide (¬ t < s))
        else if op = ">=" then some (decide (¬ s < t))
        else none
      | _, _ => none

/-- Models the `eval(condition, safe_globals, safe_locals)` call of
`FilterNode._evaluate_condition` on the expression fragment the
processed conditions exercise: a single atom, or one comparison
between two atoms.  `none` stands for any exception (syntax error,
`NameError`, `TypeError`) and for expressions outside the fragment. -/
def restrictedEval (condition : String) (data : JObj) : Option JValue :=
  match lexCondF condition.toList.length condition.toList with
  | some [a] => evalAtom data a
  | some [a, .cmp op, b] =>
    match evalAtom data a, evalAtom data b with
    | some x, some y => (pyCompare op x y).map JValue.bool
    | _, _ => none
  | _ => none

/-- Embeds `FilterNode._evaluate_condition`
(`app/nodes/filter_node.py`): check the character allow-list, then
`eval` the condition under restricted globals/locals and return the
result's truthiness; any exception — including the allow-list's own
`ValueError` — falls back to
`FilterNode._simple_condition_evaluation`.  `none` models an exception
escaping the fallback itself. -/
def evaluate_condition (condition : String) (data : JObj) : Option Bool :=
  if allowlisted condition then
    match restrictedEval condition data with
    | some v => some (truthy v)
    | none => simple_condition_evaluation condition data
  else simple_condition_evaluation condition data

example : evaluate_condition "5 == 5" [] = some true := by decide
example : evaluate_condition "6 == 5" [] = some false := by decide
example : evaluate_condition "data" [("a", .int 1)] = some true := by decide
example : simple_condition_evaluation "data" [("a", .int 1)] = some false := by decide
example : evaluate_condition "\"a\" == \"a\"" [] = some true := by decide
example : simple_condition_evaluation "x > 3" [("x", .int 5)] = some true := by decide
example : evaluate_condition "x > 3" [("x", .int 5)] = some true := by decide

/-- C2 as stated is false on the code: the condition evaluator is not
the comparison-splitting algorithm — on the allow-listed condition
`data` with a nonempty context, the restricted `eval` step returns the
context's truthiness (`true`), while the comparison-splitting
algorithm resolves `data` as a missing key and returns `false`. -/
theorem c2_counterexample :
    evaluate_condition "data" [("a", .int 1)] = some true ∧
    simple_condition_evaluation "data" [("a", .int 1)] = some false ∧
    evaluate_condition "data" [("a", .int 1)] ≠
      simple_condition_evaluation "data" [("a", .int 1)] := by
  refine ⟨by decide, by decide, by decide⟩

/-- C2 amended: the evaluator first applies the character allow-list
and a restricted `eval`; it returns the comparison-splitting
algorithm's result exactly when that step fails — in particular for
every condition with a character outside the allow-list, and for every
condition on which the restricted evaluation raises — but when the
restricted evaluation succeeds it returns that result's truthiness
instead, so the evaluator does behave as a restricted expression
evaluator first (witnessed by condition `data`). -/
theorem c2_eval_fallback :
    (∀ (c : String) (d : JObj), allowlisted c = false →
      evaluate_condition c d = simple_condition_evaluation c d) ∧
    (∀ (c : String) (d : JObj), restrictedEval c d = none →
      evaluate_condition c d = simple_condition_evaluation c d) ∧
    (∀ (c : String) (d : JObj) (v : JValue), allowlisted c = true →
      restrictedEval c d = some v →
      evaluate_condition c d = some (truthy v)) ∧
    evaluate_condition "data" [("a", .int 1)] = some true ∧
    simple_condition_evaluation "data" [("a", .int 1)] = some false := by
  refine ⟨fun c d h => ?_, fun c d h => ?_, fun c d v h1 h2 => ?_, by decide, by decide⟩
  · simp [evaluate_condition, h]
  · by_cases ha : allowlisted c <;> simp [evaluate_condition, ha, h]
  · simp [evaluate_condition, h1, h2]

/-- Witness for `c2_eval_fallback` at concrete inputs: a condition
with a disallowed character, a condition on which the restricted
evaluation raises (a dotted path is a `NameError`/syntax error for
`eval`), and a condition the restricted evaluation settles. -/
theorem c2_eval_fallback_witness :
    (allowlisted "a;b" = false ∧
      evaluate_condition "a;b" [] = simple_condition_evaluation "a;b" []) ∧
    (restrictedEval "a.b == 1" [] = none ∧
      evaluate_condition "a.b == 1" [] = simple_condition_evaluation "a.b == 1" []) ∧
    evaluate_condition "data" [("a", .int 1)] = some true :=
  ⟨⟨by decide, c2_eval_fallback.1 "a;b" [] (by decide)⟩,
    ⟨by decide, c2_eval_fallback.2.1 "a.b == 1" [] (by decide)⟩,
    c2_eval_fallback.2.2.2.1⟩

/-- The exception type `NodeExecutionError` (`app/nodes/base.py`). -/
structure NodeErr where
  message : String
  node_id : String
  node_type : String
  details : JValue
  deriving Repr, DecidableEq

instance exceptDecEq {ε α : Type} [DecidableEq ε] [DecidableEq α] :
    DecidableEq (Except ε α) := fun x y =>
  match x, y with
  | .ok a, .ok b =>
    if h : a = b then .isTrue (by rw [h])
    else .isFalse (fun e => h (Except.ok.inj e))
  | .error a, .error b =>
    if h : a = b then .isTrue (by rw [h])
    else .isFalse (fun e => h (Except.error.inj e))
  | .ok _, .error _ => .isFalse (fun e => Except.noConfusion e)
  | .error _, .ok _ => .isFalse (fun e => Except.noConfusion e)

/-- Embeds `FilterNode.execute` (`app/nodes/filter_node.py`):
substitute templates into the condition, evaluate it, and raise
`NodeExecutionError` when the boolean does not match the `continue_on`
polarity (default true, tested for truthiness), else return the
filter-result envelope.  `condition` is `config["condition"]` (a
non-empty string per `validate_config`) and `continue_on` is
`config.get("continue_on", True)`; the node type tag is the lowered
class name `"filter"`.  An exception escaping evaluation is re-raised
as the "Error evaluating filter condition" `NodeExecutionError` (its
interpolated Python exception text is not modelled). -/
def filter_execute (node_id : String) (condition : String) (continue_on : JValue)
    (input_data : JObj) : Except NodeErr JValue :=
  let processed := filter_substitute_templates condition input_data
  match evaluate_condition processed input_data with
  | none =>
    .error { message := "Error evaluating filter condition",
             node_id := node_id, node_type := "filter",
             details := .dict [("condition", .str condition)] }
  | some result =>
    let should_continue := if truthy continue_on then result else !result
    let filter_result : JValue := .dict
      [("condition", .str condition),
       ("processed_condition", .str processed),
       ("result", .bool result),
       ("continue_on", continue_on),
       ("should_continue", .bool should_continue),
       ("input_data", .dict input_data)]
    if should_continue then .ok filter_result
    else
      .error { message := "Filter condition not met: " ++ processed ++ " = " ++
                 pyStr (.bool result),
               node_id := node_id, node_type := "filter",
               details := filter_result }

/-- C5: the filter with condition `\x7b\x7bx\x7d\x7d == 5` and
`continue_on = true` returns `should_continue: true` on input `x = 5`
and raises `NodeExecutionError` on input `x = 6`; in general, whenever
evaluation yields a boolean `b`, execution with the default polarity
raises exactly when `b` is false and otherwise returns the
filter-result envelope. -/
theorem c5_filter_polarity :
    filter_execute "f1" "\x7b\x7bx\x7d\x7d == 5" (.bool true) [("x", .int 5)] =
      .ok (.dict
        [("condition", .str "\x7b\x7bx\x7d\x7d == 5"),
         ("processed_condition", .str "5 == 5"),
         ("result", .bool true),
         ("continue_on", .bool true),
         ("should_continue", .bool true),
         ("input_data", .dict [("x", .int 5)])]) ∧
    filter_execute "f1" "\x7b\x7bx\x7d\x7d == 5" (.bool true) [("x", .int 6)] =
      .error
        { message := "Filter condition not met: 6 == 5 = False",
          node_id := "f1", node_type := "filter",
          details := .dict
            [("condition", .str "\x7b\x7bx\x7d\x7d == 5"),
             ("processed_condition", .str "6 == 5"),
             ("result", .bool false),
             ("continue_on", .bool true),
             ("should_continue", .bool false),
             ("input_data", .dict [("x", .int 6)])] } ∧
    (∀ (cond : String) (input : JObj) (b : Bool) (nid : String),
      evaluate_condition (filter_substitute_templates cond input) input = some b →
      ((∃ e, filter_execute nid cond (.bool true) input = .error e) ↔ b = false) ∧
      (b = true → filter_execute nid cond (.bool true) input =
        .ok (.dict
          [("condition", .str cond),
           ("processed_condition", .str (filter_substitute_templates cond input)),
           ("result", .bool true),
           ("continue_on", .bool true),
           ("should_continue", .bool true),
           ("input_data", .dict input)]))) := by
  refine ⟨by decide, by decide, fun cond input b nid h => ?_⟩
  cases b <;> simp [filter_execute, h, truthy]

/-- Witness for `c5_filter_polarity` at concrete inputs. -/
theorem c5_filter_polarity_witness :
    (∃ e, filter_execute "w" "\x7b\x7by\x7d\x7d == 1" (.bool true) [("y", .int 2)] =
      .error e) ∧
    filter_execute "w" "\x7b\x7by\x7d\x7d == 1" (.bool true) [("y", .int 1)] =
      .ok (.dict
        [("condition", .str "\x7b\x7by\x7d\x7d == 1"),
         ("processed_condition", .str "1 == 1"),
         ("result", .bool true),
         ("continue_on", .bool true),
         ("should_continue", .bool true),
         ("input_data", .dict [("y", .int 1)])]) :=
  ⟨((c5_filter_polarity.2.2 "\x7b\x7by\x7d\x7d == 1" [("y", .int 2)] false "w"
      (by decide)).1).mpr rfl,
    (c5_filter_polarity.2.2 "\x7b\x7by\x7d\x7d == 1" [("y", .int 1)] true "w"
      (by decide)).2 rfl⟩

/-- An exception escaping a node's `execute`: either the domain
exception `NodeExecutionError`, or any other Python exception carrying
its `str(e)` text. -/
inductive PyExc where
  | nodeError (e : NodeErr)
  | other (msg : String)
  deriving Repr, DecidableEq

/-- Embeds `NodeBase.safe_execute` (`app/nodes/base.py`): run
`execute` (its outcome is the `outcome` parameter), wrap a successful
output in the normalized envelope stamped with the wall clock `now`,
re-raise a `NodeExecutionError` unchanged, and wrap any other
exception in a `NodeExecutionError` preserving the original text under
`details["original_error"]`. -/
def safe_execute (node_id node_type : String) (outcome : Except PyExc JValue)
    (now : String) : Except NodeErr JValue :=
  match outcome with
  | .ok output_data =>
    .ok (.dict
      [("node_id", .str node_id),
       ("node_type", .str node_type),
       ("status", .str "success"),
       ("data", output_data),
       ("executed_at", .str now)])
  | .error (.nodeError e) => .error e
  | .error (.other msg) =>
    .error { message := "Unexpected error in node " ++ node_id ++ ": " ++ msg,
             node_id := node_id, node_type := node_type,
             details := .dict [("original_error", .str msg)] }

/-- C6: `safe_execute` propagates a `NodeExecutionError` unchanged,
re-wraps any other exception into a `NodeExecutionError` whose details
hold the original text under `original_error`, and on success returns
exactly the `{node_id, node_type, status:"success", data,
executed_at}` envelope. -/
theorem c6_safe_execute_wrapper :
    ∀ (nid nt now : String),
      (∀ v, safe_execute nid nt (.ok v) now =
        .ok (.dict
          [("node_id", .str nid), ("node_type", .str nt),
           ("status", .str "success"), ("data", v),
           ("executed_at", .str now)])) ∧
      (∀ e, safe_execute nid nt (.error (.nodeError e)) now = .error e) ∧
      (∀ m, safe_execute nid nt (.error (.other m)) now =
        .error { message := "Unexpected error in node " ++ nid ++ ": " ++ m,
                 node_id := nid, node_type := nt,
                 details := .dict [("original_error", .str m)] }) :=
  fun _ _ _ => ⟨fun _ => rfl, fun _ => rfl, fun _ => rfl⟩

/-- Whitespace skipped between JSON tokens. -/
def skipWs (l : List Char) : List Char :=
  l.dropWhile (fun c => c = ' ' || c = '\t' || c = '\n' || c = '\r')

/-- JSON string body after the opening quote, with the single-character
escapes (`\uXXXX` escapes are outside the modelled fragment). -/
def jsonStringAux : List Char → Option (List Char × List Char)
  | [] => none
  | '\"' :: r => some ([], r)
  | '\\' :: e :: r =>
    match
      (match e with
       | '\"' => some '\"'
       | '\\' => some '\\'
       | '/' => some '/'
       | 'n' => some '\n'
       | 't' => some '\t'
       | 'r' => some '\r'
       | 'b' => some (Char.ofNat 8)
       | 'f' => some (Char.ofNat 12)
       | _ => none) with
    | some c => (jsonStringAux r).map (fun p => (c :: p.1, p.2))
    | none => none
  | c :: r => (jsonStringAux r).map (fun p => (c :: p.1, p.2))

/-- A quoted JSON string starting after its opening quote. -/
def jsonString (l : List Char) : Option (String × List Char) :=
  (jsonStringAux l).map (fun p => (String.mk p.1, p.2))

/-- A JSON number at the head of the input: integer syntax gives a
Python `int`, a decimal point or exponent gives a `float`. -/
def jsonNumber (l : List Char) : Option (JValue × List Char) :=
  let isNumChar := fun (c : Char) =>
    c.isDigit || c = '-' || c = '+' || c = '.' || c = 'e' || c = 'E'
  let num := l.takeWhile isNumChar
  let rest := l.dropWhile isNumChar
  match num with
  | [] => none
  | '+' :: _ => none
  | _ =>
    if num.contains '.' || num.contains 'e' || num.contains 'E' then
      (parsePyFloatChars num).map (fun q => (.float q.1 q.2, rest))
    else
      (parsePyInt num).map (fun n => (.int n, rest))

mutual

/-- Recursive-descent JSON value parser modelling Python `json.loads`
(strict mode); the fuel bounds recursion and `2 * length + 2` never
runs out. -/
def jsonValue : Nat → List Char → Option (JValue × List Char)
  | 0, _ => none
  | fuel + 1, l =>
    match skipWs l with
    | 'n' :: 'u' :: 'l' :: 'l' :: r => some (.null, r)
    | 't' :: 'r' :: 'u' :: 'e' :: r => some (.bool true, r)
    | 'f' :: 'a' :: 'l' :: 's' :: 'e' :: r => some (.bool false, r)
    | '\"' :: r => (jsonString r).map (fun p => (.str p.1, p.2))
    | '[' :: r =>
      match skipWs r with
      | ']' :: r2 => some (.list [], r2)
      | _ => (jsonItems fuel r).map (fun p => (.list p.1, p.2))
    | '\x7b' :: r =>
      match skipWs r with
      | '\x7d' :: r2 => some (.dict [], r2)
      | _ => (jsonMembers fuel r).map (fun p => (.dict p.1, p.2))
    | r => jsonNumber r

/-- Comma-separated JSON array items up to the closing bracket. -/
def jsonItems : Nat → List Char → Option (List JValue × List Char)
  | 0, _ => none
  | fuel + 1, l =>
    match jsonValue fuel l with
    | some (v, r) =>
      match skipWs r with
      | ',' :: r2 => (jsonItems fuel r2).map (fun p => (v :: p.1, p.2))
      | ']' :: r2 => some ([v], r2)
      | _ => none
    | none => none

/-- Comma-separated JSON object members up to the closing brace. -/
def jsonMembers : Nat → List Char → Option (JObj × List Char)
  | 0, _ => none
  | fuel + 1, l =>
    match skipWs l with
    | '\"' :: r =>
      match jsonString r with
      | some (k, r2) =>
        match skipWs r2 with
        | ':' :: r3 =>
          match jsonValue fuel r3 with
          | some (v, r4) =>
            match skipWs r4 with
            | ',' :: r5 => (jsonMembers fuel r5).map (fun p => ((k, v) :: p.1, p.2))
            | '\x7d' :: r5 => some ([(k, v)], r5)
            | _ => none
          | none => none
        | _ => none
      | none => none
    | _ => none

end

/-- Python `json.loads(s)`: parse one JSON value and require only
whitespace after it; `none` models `json.JSONDecodeError`. -/
def json_loads (s : String) : Option JValue :=
  match jsonValue (2 * s.toList.length + 2) s.toList with
  | some (v, r) => if (skipWs r).isEmpty then some v else none
  | none => none

example : json_loads "\x7b\"a\": 1, \"b\": [1.5, null, true]\x7d" =
    some (.dict [("a", .int 1), ("b", .list [.float 15 1, .null, .bool true])]) := by
  decide

example : json_loads "\x7bbroken" = none := by decide

/-- The HTTP response delivered by the transport when the outbound
call completes, as seen by `HTTPRequestNode._process_response` via the
`requests.Response` object. -/
structure HttpResponse where
  status_code : Int
  headers : List (String × String)
  text : String
  url : String
  deriving Repr

/-- `requests.Response.ok`: true exactly for status codes below 400. -/
def responseOk (r : HttpResponse) : Bool :=
  decide (r.status_code < 400)

/-- Embeds `HTTPRequestNode._process_response`
(`app/nodes/http_request.py`): structured response data with the JSON
body parsed from the text when possible and `None` otherwise. -/
def process_response (r : HttpResponse) : JValue :=
  .dict
    [("status_code", .int r.status_code),
     ("headers", .dict (r.headers.map (fun kv => (kv.1, JValue.str kv.2)))),
     ("text", .str r.text),
     ("json", (json_loads r.text).getD .null),
     ("ok", .bool (responseOk r)),
     ("url", .str r.url)]

/-- Python `str.upper()` (ASCII). -/
def pyUpper (s : String) : String :=
  String.mk (s.toList.map Char.toUpper)

/-- The string content of a config value that the node's
`validate_config` guarantees to be a string (`url`, `method`). -/
def jstrD : JValue → String
  | .str s => s
  | _ => ""

/-- Whether a stripped string starts with an opening brace, as in the
`body.strip().startswith` checks of `HTTPRequestNode`. -/
def startsWithBrace : List Char → Bool
  | '\x7b' :: _ => true
  | _ => false

/-- Whether a stripped string starts with an opening bracket. -/
def startsWithBracket : List Char → Bool
  | '[' :: _ => true
  | _ => false

/-- Template substitution applied to an arbitrary header value: the
source's `_substitute_templates` returns non-string templates
unchanged. -/
def substituteValueHttp (v : JValue) (input_data : JObj) : JValue :=
  match v with
  | .str s => .str (http_substitute_templates s input_data)
  | v => v

/-- Embeds `HTTPRequestNode._process_headers`
(`app/nodes/http_request.py`): substitute templates in each header key
and value, then default `Content-Type` to `application/json` when a
body is configured that is a dict or a string starting with a brace
(a non-dict `headers` config value raises before the request in the
source; the model requires the validated dict shape and reads it as
empty otherwise). -/
def process_headers (config : JObj) (input_data : JObj) : JObj :=
  let headers : JObj :=
    match dictFindD config "headers" (.dict []) with
    | .dict hs => hs
    | _ => []
  let processed := headers.foldl
    (fun acc kv =>
      dictSet acc (http_substitute_templates kv.1 input_data)
        (substituteValueHttp kv.2 input_data)) []
  if dictContains config "body" && !dictContains processed "Content-Type" then
    match dictFind config "body" with
    | some (.dict _) => dictSet processed "Content-Type" (.str "application/json")
    | some (.str b) =>
      if startsWithBrace (listStrip b.toList) then
        dictSet processed "Content-Type" (.str "application/json")
      else processed
    | _ => processed
  else processed

mutual

/-- Embeds `HTTPRequestNode._substitute_dict_templates`' per-value
dispatch: strings are substituted, dicts recurse, lists substitute
string and dict items and keep everything else. -/
def substDictValue (input_data : JObj) : JValue → JValue
  | .str s => .str (http_substitute_templates s input_data)
  | .dict d => .dict (substDictEntries input_data [] d)
  | .list items => .list (substListItems input_data items)
  | v => v

/-- Item dispatch of the list comprehension in
`_substitute_dict_templates`. -/
def substListItems (input_data : JObj) : List JValue → List JValue
  | [] => []
  | .str s :: rest =>
    .str (http_substitute_templates s input_data) :: substListItems input_data rest
  | .dict d :: rest =>
    .dict (substDictEntries input_data [] d) :: substListItems input_data rest
  | v :: rest => v :: substListItems input_data rest

/-- Embeds `HTTPRequestNode._substitute_dict_templates`
(`app/nodes/http_request.py`): rebuild the dict with substituted keys
and values (duplicate processed keys collapse as under Python dict
assignment). -/
def substDictEntries (input_data : JObj) (acc : JObj) : JObj → JObj
  | [] => acc
  | (k, v) :: rest =>
    substDictEntries input_data
      (dictSet acc (http_substitute_templates k input_data)
        (substDictValue input_data v)) rest

end

/-- Embeds `HTTPRequestNode._process_body`
(`app/nodes/http_request.py`): no configured body gives `None`; a
string body is substituted and parsed as JSON when it looks like JSON
(falling back to the string on a parse error); a dict body is
substituted recursively; anything else passes through. -/
def process_body (config : JObj) (input_data : JObj) : JValue :=
  match dictFind config "body" with
  | none => .null
  | some (.str body) =>
    let processed := http_substitute_templates body input_data
    if startsWithBrace (listStrip processed.toList) ||
        startsWithBracket (listStrip processed.toList) then
      match json_loads processed with
      | some v => v
      | none => .str processed
    else .str processed
  | some (.dict d) => .dict (substDictEntries input_data [] d)
  | some b => b

/-- Outcome of the single `requests.request` call of
`HTTPRequestNode.execute`: a completed HTTP response of any status, or
one of the three transport failures the source classifies
(`requests.exceptions.Timeout`, `requests.exceptions.ConnectionError`,
any other `requests.exceptions.RequestException`), each carrying its
exception text. -/
inductive TransportOutcome where
  | completed (r : HttpResponse)
  | timedOut
  | connectionFailed (msg : String)
  | requestFailed (msg : String)
  deriving Repr

/-- Embeds `HTTPRequestNode.execute` (`app/nodes/http_request.py`):
build the request from the config with template substitution, pass the
configured timeout (default 30) to the transport, and on a completed
response — whatever its status code — return the
`{request, response, status_code, success}` envelope; the three
transport failures raise `NodeExecutionError`s with distinct
classifications.  The node type tag is the lowered class name
`"httprequest"`. -/
def http_execute (config : JObj) (input_data : JObj) (outcome : TransportOutcome)
    (node_id : String) : Except NodeErr JValue :=
  let url := http_substitute_templates (jstrD (dictFindD config "url" .null)) input_data
  let method := pyUpper (jstrD (dictFindD config "method" .null))
  let headers := process_headers config input_data
  let body := process_body config input_data
  let timeout := dictFindD config "timeout" (.int 30)
  match outcome with
  | .completed r =>
    .ok (.dict
      [("request", .dict
          [("url", .str url), ("method", .str method),
           ("headers", .dict headers), ("body", body)]),
       ("response", process_response r),
       ("status_code", .int r.status_code),
       ("success", .bool (responseOk r))])
  | .timedOut =>
    .error { message := "HTTP request timed out after " ++ pyStr timeout ++ " seconds",
             node_id := node_id, node_type := "httprequest",
             details := .dict [("url", .str url), ("timeout", timeout)] }
  | .connectionFailed m =>
    .error { message := "Connection error: " ++ m,
             node_id := node_id, node_type := "httprequest",
             details := .dict [("url", .str url), ("error", .str m)] }
  | .requestFailed m =>
    .error { message := "HTTP request failed: " ++ m,
             node_id := node_id, node_type := "httprequest",
             details := .dict [("url", .str url), ("error", .str m)] }

/-- The entries of a dict value (empty for non-dicts). -/
def asObj : JValue → JObj
  | .dict d => d
  | _ => []

/-- C4: whenever the outbound call completes with any HTTP response —
non-2xx/3xx included — `HTTPRequestNode.execute` does not fail but
returns the `{request, response, status_code, success}` envelope; a
`NodeExecutionError` arises only from the three transport failures,
each with a distinct message classification (and the timeout carrying
its bound in message and details); the timeout passed to the transport
is `config.get("timeout", 30)`, defaulting to 30 seconds. -/
theorem c4_http_node_envelope :
    (∀ (config input : JObj) (r : HttpResponse) (nid : String),
      ∃ v, http_execute config input (.completed r) nid = .ok v ∧
        dictFind (asObj v) "status_code" = some (.int r.status_code) ∧
        dictFind (asObj v) "success" = some (.bool (responseOk r)) ∧
        dictFind (asObj v) "response" = some (process_response r) ∧
        dictContains (asObj v) "request" = true) ∧
    (∀ (config input : JObj) (nid : String),
      ∃ e, http_execute config input .timedOut nid = .error e ∧
        e.message = "HTTP request timed out after " ++
          pyStr (dictFindD config "timeout" (.int 30)) ++ " seconds" ∧
        dictFind (asObj e.details) "timeout" =
          some (dictFindD config "timeout" (.int 30))) ∧
    (∀ (config input : JObj) (m nid : String),
      ∃ e, http_execute config input (.connectionFailed m) nid = .error e ∧
        e.message = "Connection error: " ++ m) ∧
    (∀ (config input : JObj) (m nid : String),
      ∃ e, http_execute config input (.requestFailed m) nid = .error e ∧
        e.message = "HTTP request failed: " ++ m) ∧
    (∀ config : JObj, dictFind config "timeout" = none →
      dictFindD config "timeout" (.int 30) = .int 30) ∧
    (∀ t m : String,
      "HTTP request timed out after " ++ t ++ " seconds" ≠ "Connection error: " ++ m) ∧
    (∀ t m : String,
      "HTTP request timed out after " ++ t ++ " seconds" ≠
        "HTTP request failed: " ++ m) ∧
    (∀ m m2 : String, "Connection error: " ++ m ≠ "HTTP request failed: " ++ m2) := by
  refine ⟨fun config input r nid => ⟨_, rfl, rfl, rfl, rfl, rfl⟩,
    fun config input nid => ⟨_, rfl, rfl, rfl⟩,
    fun config input m nid => ⟨_, rfl, rfl⟩,
    fun config input m nid => ⟨_, rfl, rfl⟩,
    fun config h => by simp [dictFindD, h],
    fun t m h => ?_, fun t m h => ?_, fun m m2 h => ?_⟩
  · have h1 : ("HTTP request timed out after " ++ t ++ " seconds").data.head? =
        some 'H' := rfl
    have h2 : ("Connection error: " ++ m).data.head? = some 'C' := rfl
    rw [h] at h1
    rw [h2] at h1
    exact absurd h1 (by decide)
  · have h1 : ("HTTP request timed out after " ++ t ++ " seconds").data.get? 13 =
        some 't' := rfl
    have h2 : ("HTTP request failed: " ++ m).data.get? 13 = some 'f' := rfl
    rw [h] at h1
    rw [h2] at h1
    exact absurd h1 (by decide)
  · have h1 : ("Connection error: " ++ m).data.head? = some 'C' := rfl
    have h2 : ("HTTP request failed: " ++ m2).data.head? = some 'H' := rfl
    rw [h] at h1
    rw [h2] at h1
    exact absurd h1 (by decide)

/-- Witness for `c4_http_node_envelope` at concrete inputs: a 500
response still yields the success envelope, and an absent `timeout`
key defaults to 30. -/
theorem c4_http_node_envelope_witness :
    (∃ v, http_execute [("url", .str "https://api.test/x"), ("method", .str "get")]
        [] (.completed ⟨500, [], "oops", "https://api.test/x"⟩) "h1" = .ok v ∧
      dictFind (asObj v) "status_code" = some (.int 500) ∧
      dictFind (asObj v) "success" =
        some (.bool (responseOk ⟨500, [], "oops", "https://api.test/x"⟩)) ∧
      dictFind (asObj v) "response" =
        some (process_response ⟨500, [], "oops", "https://api.test/x"⟩) ∧
      dictContains (asObj v) "request" = true) ∧
    dictFindD [("url", .str "https://api.test/x")] "timeout" (.int 30) = .int 30 :=
  ⟨c4_http_node_envelope.1 [("url", .str "https://api.test/x"), ("method", .str "get")]
      [] ⟨500, [], "oops", "https://api.test/x"⟩ "h1",
    c4_http_node_envelope.2.2.2.2.1 [("url", .str "https://api.test/x")] (by decide)⟩

/-- The `Workflow` model row as the engine reads it (`app/models.py`):
id, name, the JSON definition, and the active flag. -/
structure Workflow where
  id : Int
  name : String
  definition : JObj
  is_active : Bool

/-- Outcome of `create_node(node_type, node_config)` followed by
`node.safe_execute(current_data)` for one node, abstracting the node
registry (`app/nodes/__init__.py`) and the node implementations behind
the loop of `WorkflowEngine._execute_nodes`: `.ok` carries the
normalized envelope `safe_execute` returns (it raises nothing else),
`.error (.nodeError e)` a `NodeExecutionError` from construction or
execution, and `.error (.other m)` any other construction exception
(such as the registry's unknown-type `ValueError`). -/
abbrev NodeOracle := String → String → JValue → JObj → Except PyExc JValue

/-- An exception escaping the node loop of
`WorkflowEngine._execute_nodes`: a `NodeExecutionError`, or the
`WorkflowExecutionError` raised for a node entry missing id/type. -/
inductive RunExc where
  | nodeExc (e : NodeErr)
  | wfExc (message : String) (details : JValue)

/-- The exception type `WorkflowExecutionError`
(`app/workflow_engine.py`). -/
structure WorkflowErr where
  message : String
  workflow_id : Int
  details : JValue
  deriving Repr, DecidableEq

/-- Observable side effects of one orchestrator run: processing a node
(constructing and executing it), or calling into the queue or
execution-log layers — which the orchestrator never does, as the
theorems below state. -/
inductive EngineEvent where
  | nodeExecuted (node_id : String)
  | queueInvoked
  | logInvoked
  deriving Repr, DecidableEq

/-- Result of the node loop: the exception if one escaped, the
per-node ledger and data context accumulated so far, and the emitted
events. -/
structure ExecNodesResult where
  err : Option RunExc
  node_results : JObj
  current_data : JObj
  events : List EngineEvent

/-- Embeds `WorkflowEngine._execute_nodes` (`app/workflow_engine.py`):
for each node definition require truthy `id` and `type`, run the node
through the oracle, store its envelope in the ledger and merge its
`data` into the current context; a `NodeExecutionError` aborts the
remaining nodes, any other construction exception is wrapped into one
first. -/
def execute_nodes (oracle : NodeOracle) :
    List JValue → JObj → JObj → ExecNodesResult
  | [], node_results, current_data => ⟨none, node_results, current_data, []⟩
  | nd :: rest, node_results, current_data =>
    let node_id := dictFindD (asObj nd) "id" .null
    let node_type := dictFindD (asObj nd) "type" .null
    let node_config := dictFindD (asObj nd) "config" (.dict [])
    if truthy node_id = false || truthy node_type = false then
      ⟨some (.wfExc "Node missing required id or type"
          (.dict [("node_definition", nd)])),
        node_results, current_data, []⟩
    else
      let nid := jstrD node_id
      match oracle nid (jstrD node_type) node_config current_data with
      | .ok envelope =>
        let results := dictSet node_results nid envelope
        let current :=
          merge_data current_data (dictFindD (asObj envelope) "data" .null) nid
        let step := execute_nodes oracle rest results current
        ⟨step.err, step.node_results, step.current_data,
          .nodeExecuted nid :: step.events⟩
      | .error (.nodeError e) =>
        ⟨some (.nodeExc e), node_results, current_data, [.nodeExecuted nid]⟩
      | .error (.other m) =>
        ⟨some (.nodeExc
            { message := "Unexpected error in node " ++ nid ++ ": " ++ m,
              node_id := nid, node_type := jstrD node_type,
              details := .dict [("original_error", .str m)] }),
          node_results, current_data, [.nodeExecuted nid]⟩

/-- The failure payload `error_result` both exception handlers of
`WorkflowEngine.execute_workflow` assemble. -/
def errorResult (wf : Workflow) (now : String) (err : JValue)
    (node_results : JObj) (trigger_payload : JObj) : JValue :=
  .dict
    [("workflow_id", .int wf.id), ("workflow_name", .str wf.name),
     ("status", .str "failed"), ("started_at", .str now),
     ("failed_at", .str now), ("error", err),
     ("node_results", .dict node_results),
     ("trigger_payload", .dict trigger_payload)]

/-- Embeds `WorkflowEngine.execute_workflow`
(`app/workflow_engine.py`): reject a falsy node list (that inner
`WorkflowExecutionError` is caught by the handler of last resort and
re-wrapped with the "Workflow execution failed: " prefix), run the
nodes, and either compile the success result or wrap the escaped
exception — a `NodeExecutionError` under "Node execution failed: ",
anything else under "Workflow execution failed: ".  The wall clock is
the single parameter `now`; a truthy non-list `nodes` value, which
raises a `TypeError` in the source's `for` loop, is outside the
modelled fragment and mapped to the same handler of last resort. -/
def execute_workflow (wf : Workflow) (trigger_payload : JObj) (oracle : NodeOracle)
    (now : String) : Except WorkflowErr JValue × List EngineEvent :=
  let nodes := dictFindD wf.definition "nodes" (.list [])
  if truthy nodes = false then
    (.error { message := "Workflow execution failed: Workflow has no nodes defined",
              workflow_id := wf.id,
              details := errorResult wf now
                (.dict [("type", .str "workflow_execution_error"),
                        ("message", .str "Workflow has no nodes defined"),
                        ("details", .dict [])])
                [] trigger_payload }, [])
  else
    match nodes with
    | .list nodeList =>
      let step := execute_nodes oracle nodeList [] trigger_payload
      match step.err with
      | none =>
        (.ok (.dict
          [("workflow_id", .int wf.id), ("workflow_name", .str wf.name),
           ("status", .str "success"), ("started_at", .str now),
           ("completed_at", .str now),
           ("trigger_payload", .dict trigger_payload),
           ("node_results", .dict step.node_results),
           ("final_data", .dict step.current_data)]), step.events)
      | some (.nodeExc e) =>
        (.error { message := "Node execution failed: " ++ e.message,
                  workflow_id := wf.id,
                  details := errorResult wf now
                    (.dict [("type", .str "node_execution_error"),
                            ("message", .str e.message),
                            ("node_id", .str e.node_id),
                            ("node_type", .str e.node_type),
                            ("details", e.details)])
                    step.node_results trigger_payload }, step.events)
      | some (.wfExc m _) =>
        (.error { message := "Workflow execution failed: " ++ m,
                  workflow_id := wf.id,
                  details := errorResult wf now
                    (.dict [("type", .str "workflow_execution_error"),
                            ("message", .str m), ("details", .dict [])])
                    step.node_results trigger_payload }, step.events)
    | _ =>
      (.error { message := "Workflow execution failed: nodes is not iterable",
                workflow_id := wf.id,
                details := errorResult wf now
                  (.dict [("type", .str "workflow_execution_error"),
                          ("message", .str "nodes is not iterable"),
                          ("details", .dict [])])
                  [] trigger_payload }, [])

/-- C7: on a workflow whose definition has an empty or absent node
list, `execute_workflow` raises a `WorkflowExecutionError` reporting
that the workflow has no nodes, executes no node, and emits no queue
or execution-log effect (the event trace — whose alphabet includes
queue and log invocations — is empty). -/
theorem c7_empty_nodes :
    ∀ (wf : Workflow) (payload : JObj) (oracle : NodeOracle) (now : String),
      truthy (dictFindD wf.definition "nodes" (.list [])) = false →
      (execute_workflow wf payload oracle now).2 = [] ∧
      ∃ err, (execute_workflow wf payload oracle now).1 = .error err ∧
        err.message = "Workflow execution failed: Workflow has no nodes defined" ∧
        err.workflow_id = wf.id := by
  intro wf payload oracle now h
  have he : (execute_workflow wf payload oracle now).1 = .error
      { message := "Workflow execution failed: Workflow has no nodes defined",
        workflow_id := wf.id,
        details := errorResult wf now
          (.dict [("type", .str "workflow_execution_error"),
                  ("message", .str "Workflow has no nodes defined"),
                  ("details", .dict [])]) [] payload } := by
    simp [execute_workflow, h]
  exact ⟨by simp [execute_workflow, h], ⟨_, he, rfl, rfl⟩⟩

/-- Witness for `c7_empty_nodes` at a concrete workflow whose
definition has no `nodes` key. -/
theorem c7_empty_nodes_witness :
    (execute_workflow ⟨1, "w", [], true⟩ [] (fun _ _ _ _ => .error (.other "unused"))
        "t").2 = [] ∧
    ∃ err, (execute_workflow ⟨1, "w", [], true⟩ []
        (fun _ _ _ _ => .error (.other "unused")) "t").1 = .error err ∧
      err.message = "Workflow execution failed: Workflow has no nodes defined" ∧
      err.workflow_id = 1 :=
  c7_empty_nodes ⟨1, "w", [], true⟩ [] (fun _ _ _ _ => .error (.other "unused")) "t"
    (by decide)

/-- One write of the worker to the `ExecutionLog` row of its job:
the creating insert, or a mutating update carrying the fields the
worker sets. -/
inductive LogOp where
  | createRow (status : String) (payload : JValue) (started_at : String)
  | updateRow (status : String) (result : Option JValue)
      (error_message : Option String) (completed_at : Option String)
  deriving Repr, DecidableEq

/-- Whether the operation is the creating insert. -/
def isCreateRow : LogOp → Bool
  | .createRow _ _ _ => true
  | _ => false

/-- Whether the operation is a mutating update. -/
def isUpdateRow : LogOp → Bool
  | .updateRow _ _ _ _ => true
  | _ => false

/-- Embeds `execute_workflow_job` (`app/queue.py`): look the workflow
up (a missing or inactive workflow raises before any log row exists),
create the `ExecutionLog` row with status `"running"`, invoke the
orchestrator, and write back exactly one update — `"success"` with the
result and completion timestamp, or `"failed"` with the error message,
the structured error details as `result`, and the completion
timestamp.  The orchestrator wraps every exception in
`WorkflowExecutionError`, so the handler for other exceptions never
runs after the row exists. -/
def execute_workflow_job (workflow_id : Int) (wf : Option Workflow) (payload : JObj)
    (oracle : NodeOracle) (now : String) : List LogOp × Except String JValue :=
  match wf with
  | none => ([], .error ("Workflow " ++ toString workflow_id ++ " not found"))
  | some workflow =>
    if workflow.is_active = false then
      ([], .error ("Workflow " ++ toString workflow_id ++ " is not active"))
    else
      let created := LogOp.createRow "running" (.dict payload) now
      match (execute_workflow workflow payload oracle now).1 with
      | .ok result =>
        ([created, .updateRow "success" (some result) none (some now)], .ok result)
      | .error e =>
        ([created, .updateRow "failed" (some e.details) (some e.message) (some now)],
          .error e.message)

/-- Embeds `execute_workflow_job_mock` (`app/mock_queue.py`), whose
body is line-for-line the same lookup/create/run/update sequence as
`execute_workflow_job`. -/
def execute_workflow_job_mock (workflow_id : Int) (wf : Option Workflow)
    (payload : JObj) (oracle : NodeOracle) (now : String) :
    List LogOp × Except String JValue :=
  match wf with
  | none => ([], .error ("Workflow " ++ toString workflow_id ++ " not found"))
  | some workflow =>
    if workflow.is_active = false then
      ([], .error ("Workflow " ++ toString workflow_id ++ " is not active"))
    else
      let created := LogOp.createRow "running" (.dict payload) now
      match (execute_workflow workflow payload oracle now).1 with
      | .ok result =>
        ([created, .updateRow "success" (some result) none (some now)], .ok result)
      | .error e =>
        ([created, .updateRow "failed" (some e.details) (some e.message) (some now)],
          .error e.message)

/-- C8: in both worker backends, a job either writes no log row at all
(missing or inactive workflow) or writes exactly one creating insert
with status `"running"` followed by exactly one update — to
`"success"` with result and completion timestamp when the run
succeeds, or to `"failed"` with error message and completion timestamp
when it fails — and never a second update. -/
theorem c8_execution_log_lifecycle :
    (∀ (wid : Int) (wf : Option Workflow) (payload : JObj) (oracle : NodeOracle)
        (now : String),
      (execute_workflow_job wid wf payload oracle now).1.countP
          (fun op => isCreateRow op) ≤ 1 ∧
      (execute_workflow_job wid wf payload oracle now).1.countP
          (fun op => isUpdateRow op) ≤ 1 ∧
      (execute_workflow_job_mock wid wf payload oracle now).1.countP
          (fun op => isCreateRow op) ≤ 1 ∧
      (execute_workflow_job_mock wid wf payload oracle now).1.countP
          (fun op => isUpdateRow op) ≤ 1 ∧
      (execute_workflow_job_mock wid wf payload oracle now).1 =
        (execute_workflow_job wid wf payload oracle now).1) ∧
    (∀ (wid : Int) (workflow : Workflow) (payload : JObj) (oracle : NodeOracle)
        (now : String), workflow.is_active = true →
      (∀ r, (execute_workflow workflow payload oracle now).1 = .ok r →
        (execute_workflow_job wid (some workflow) payload oracle now).1 =
          [.createRow "running" (.dict payload) now,
           .updateRow "success" (some r) none (some now)]) ∧
      (∀ e, (execute_workflow workflow payload oracle now).1 = .error e →
        (execute_workflow_job wid (some workflow) payload oracle now).1 =
          [.createRow "running" (.dict payload) now,
           .updateRow "failed" (some e.details) (some e.message) (some now)])) ∧
    (∀ (wid : Int) (payload : JObj) (oracle : NodeOracle) (now : String),
      (execute_workflow_job wid none payload oracle now).1 = [] ∧
      (execute_workflow_job_mock wid none payload oracle now).1 = []) := by
  refine ⟨fun wid wf payload oracle now => ?_,
    fun wid w payload oracle now hact => ⟨fun r hr => ?_, fun e he => ?_⟩,
    fun wid payload oracle now => ⟨rfl, rfl⟩⟩
  · cases wf with
    | none => exact ⟨by simp [execute_workflow_job],
        by simp [execute_workflow_job],
        by simp [execute_workflow_job_mock],
        by simp [execute_workflow_job_mock], rfl⟩
    | some w =>
      by_cases hact : w.is_active = false
      · refine ⟨?_, ?_, ?_, ?_, rfl⟩ <;>
          simp [execute_workflow_job, execute_workflow_job_mock, hact]
      · cases hres : (execute_workflow w payload oracle now).1 <;>
          refine ⟨?_, ?_, ?_, ?_, rfl⟩ <;>
            simp [execute_workflow_job, execute_workflow_job_mock, hact, hres,
              isCreateRow, isUpdateRow, List.countP_cons]
  · simp [execute_workflow_job, hact, hr]
  · simp [execute_workflow_job, hact, he]

/-- Witness for `c8_execution_log_lifecycle` at a concrete run: a
one-node workflow whose node succeeds gives exactly the
running-then-success log pair carrying the orchestrator's result. -/
theorem c8_execution_log_lifecycle_witness :
    (execute_workflow_job 7
        (some ⟨7, "w", [("nodes", .list [.dict [("id", .str "n1"), ("type", .str "filter")]])], true⟩)
        [] (fun _ _ _ _ => .ok (.dict [("data", .dict [])])) "t").1 =
      [.createRow "running" (.dict []) "t",
       .updateRow "success"
         (some (.dict
           [("workflow_id", .int 7), ("workflow_name", .str "w"),
            ("status", .str "success"), ("started_at", .str "t"),
            ("completed_at", .str "t"), ("trigger_payload", .dict []),
            ("node_results", .dict [("n1", .dict [("data", .dict [])])]),
            ("final_data", .dict [("n1", .dict [])])]))
         none (some "t")] := by
  have hres : (execute_workflow
      ⟨7, "w", [("nodes", .list [.dict [("id", .str "n1"), ("type", .str "filter")]])], true⟩
      [] (fun _ _ _ _ => .ok (.dict [("data", .dict [])])) "t").1 =
      .ok (.dict
        [("workflow_id", .int 7), ("workflow_name", .str "w"),
         ("status", .str "success"), ("started_at", .str "t"),
         ("completed_at", .str "t"), ("trigger_payload", .dict []),
         ("node_results", .dict [("n1", .dict [("data", .dict [])])]),
         ("final_data", .dict [("n1", .dict [])])]) := by decide
  exact (c8_execution_log_lifecycle.2.1 7
      ⟨7, "w", [("nodes", .list [.dict [("id", .str "n1"), ("type", .str "filter")]])], true⟩
      [] (fun _ _ _ _ => .ok (.dict [("data", .dict [])])) "t" rfl).1 _ hres
